import Mathlib

/-!
Verification of the open-world example server shipped in the repository
(the Socket.io server embedded in the world README: `getWorld`,
`validateMovement`, `checkRateLimit`, the `connection` handler with its
`player:move`, `chat:message`, `player:interact`, `disconnect` handlers,
and the periodic stale-player cleanup).

The JavaScript `Map` objects are embedded as association lists in
insertion order (`mget`, `mset`, `mdel` mirror `Map.get`, `Map.set`,
`Map.delete`).  Because the per-connection handlers close over the
`world` Map object obtained at connection time, world maps live in a
store indexed by an allocation counter (`ServerState.nextRef`), and the
registry `worlds` maps world ids to store references; a `Session`
records the reference its handlers captured.  Socket emissions become an
explicit `Effect` list; positions are rational pairs.
-/

/-- Association-list lookup mirroring `Map.get`: first entry with the key. -/
def mget {κ α : Type} [DecidableEq κ] (k : κ) : List (κ × α) → Option α
  | [] => none
  | e :: rest => if e.1 = k then some e.2 else mget k rest

/-- Association-list update mirroring `Map.set`: replace in place, else append. -/
def mset {κ α : Type} [DecidableEq κ] (k : κ) (v : α) : List (κ × α) → List (κ × α)
  | [] => [(k, v)]
  | e :: rest => if e.1 = k then (k, v) :: rest else e :: mset k v rest

/-- Association-list removal mirroring `Map.delete`. -/
def mdel {κ α : Type} [DecidableEq κ] (k : κ) (l : List (κ × α)) : List (κ × α) :=
  l.filter (fun e => e.1 ≠ k)

/-- A 2D position, `{x, y}` in the source, with rational coordinates. -/
structure Position where
  x : ℚ
  y : ℚ
deriving DecidableEq

/-- Squared Euclidean displacement `dx*dx + dy*dy` between two positions. -/
def dist2 (oldPos newPos : Position) : ℚ :=
  (newPos.x - oldPos.x) * (newPos.x - oldPos.x) +
    (newPos.y - oldPos.y) * (newPos.y - oldPos.y)

/-- The player record built by the `connection` handler. -/
structure Player where
  id : String
  username : String
  position : Position
  direction : String
  isMoving : Bool
  avatar : String
  timestamp : Nat
deriving DecidableEq

/-- A world is a Map from user id to player, as an association list. -/
abbrev WorldMap := List (String × Player)

/-- Configuration constant `MAX_PLAYERS_PER_WORLD = 50` from the source. -/
def MAX_PLAYERS_PER_WORLD : Nat := 50

/-- Configuration constant `UPDATE_RATE_LIMIT = 50` ms from the source. -/
def UPDATE_RATE_LIMIT : Nat := 50

/-- Staleness threshold, the literal `300000` ms in the periodic cleanup. -/
def STALE_MS : Nat := 300000

/-- Movement validator exactly as in the source:
`if (!oldPos) return true;` then
`Math.sqrt(dx*dx + dy*dy) <= maxSpeed`.  Stated over the reals via
`Real.sqrt`; note it takes no elapsed-time parameter. -/
def validateMovement (oldPos : Option Position) (newPos : Position) (maxSpeed : ℚ) : Prop :=
  match oldPos with
  | none => True
  | some op => Real.sqrt ((dist2 op newPos : ℚ) : ℝ) ≤ (maxSpeed : ℝ)

/-- Executable form of the validator used by the move handler: comparing
the squared distance against the squared speed bound, which agrees with
`validateMovement` for nonnegative `maxSpeed` (proved below). -/
def validateMovementB (oldPos : Option Position) (newPos : Position) (maxSpeed : ℚ) : Bool :=
  match oldPos with
  | none => true
  | some op => decide (dist2 op newPos ≤ maxSpeed * maxSpeed)

/-- Rate limiter `checkRateLimit` from the source: reads
`rateLimits.get(socketId) || 0`; on pass it writes `now` back, on
failure the stored clock is untouched. -/
def checkRateLimit (socketId : String) (now : Nat) (rl : List (String × Nat)) :
    Bool × List (String × Nat) :=
  let lastUpdate := (mget socketId rl).getD 0
  if now - lastUpdate < UPDATE_RATE_LIMIT then (false, rl)
  else (true, mset socketId now rl)

/-- Events emitted by the server, one constructor per `emit` payload shape. -/
inductive Event where
  | worldState (players : List Player)
  | playerJoined (p : Player)
  | playerMoved (playerId : String) (pos : Position) (dir : String) (moving : Bool)
      (timestamp : Nat)
  | positionReset (pos : Position)
  | playerLeft (playerId : String)
  | chatMessage (playerId username message : String) (timestamp : Nat)
  | interactionInitiated (targetId targetUsername : String)
  | interactionReceived (fromId fromUsername : String)
  | playerEmoted (playerId emote : String) (timestamp : Nat)
  | errorMsg (message : String)
deriving DecidableEq

/-- Observable transport actions: `socket.emit` and `io.to(socketId)`
become `emitToSocket`, `socket.to(worldId).emit` becomes
`broadcastExcept` (room minus sender), `io.to(worldId).emit` becomes
`broadcastAll`, and `socket.disconnect()` becomes `disconnect`. -/
inductive Effect where
  | emitToSocket (socketId : String) (ev : Event)
  | broadcastExcept (worldId : String) (exceptSocketId : String) (ev : Event)
  | broadcastAll (worldId : String) (ev : Event)
  | disconnect (socketId : String)
deriving DecidableEq

/-- Whether an effect delivers its event to a recipient whose socket id
is `sid` and who is joined to the transport room `room`. -/
def deliversTo (room sid : String) : Effect → Bool
  | .emitToSocket s _ => s == sid
  | .broadcastExcept w ex _ => w == room && ex != sid
  | .broadcastAll w _ => w == room
  | .disconnect _ => false

/-- Whole-server state: the world store (Map objects by allocation
reference), the registry `worlds : worldId -> reference`, plus the
`userSockets` and `rateLimits` Maps of the source. -/
structure ServerState where
  worlds : List (String × Nat)
  store : List (Nat × WorldMap)
  userSockets : List (String × String)
  rateLimits : List (String × Nat)
  nextRef : Nat
deriving DecidableEq

/-- The per-connection context: the handlers of one socket close over
the user id, world id, socket id and the world Map reference obtained
from `getWorld` at connection time. -/
structure Session where
  userId : String
  worldId : String
  socketId : String
  worldRef : Nat
deriving DecidableEq

/-- Result of the `connection` handler. -/
structure ConnResult where
  state : ServerState
  effects : List Effect
  session : Option Session
deriving DecidableEq

/-- The source helper `getWorld`: return the registered world, or
register a fresh empty Map.  Returns the reference of the Map the
caller captures. -/
def getWorld (worldId : String) (s : ServerState) : Nat × ServerState :=
  match mget worldId s.worlds with
  | some ref => (ref, s)
  | none =>
      (s.nextRef,
        { s with
          worlds := mset worldId s.nextRef s.worlds
          store := mset s.nextRef [] s.store
          nextRef := s.nextRef + 1 })

/-- The world map a connection to `worldId` would operate on. -/
def worldAt (worldId : String) (s : ServerState) : WorldMap :=
  let r := getWorld worldId s
  (mget r.1 r.2.store).getD []

/-- The player object constructed at admission: spawn `(500, 500)`,
facing `down`, not moving, username defaulted from the user id. -/
def mkPlayer (userId username : String) (now : Nat) : Player :=
  { id := userId
    username := if username = "" then "User" ++ userId.take 4 else username
    position := { x := 500, y := 500 }
    direction := "down"
    isMoving := false
    avatar := "🧍"
    timestamp := now }

/-- The `connection` handler: refuse a missing id, resolve the world,
refuse over capacity with an `error` then disconnect, otherwise record
the socket, send the `world:state` snapshot taken before insertion,
insert the freshly built player and broadcast `player:joined` to the
other room members. -/
def handleConnection (userId worldId username socketId : String) (now : Nat)
    (s : ServerState) : ConnResult :=
  if userId = "" ∨ worldId = "" then
    ⟨s, [.disconnect socketId], none⟩
  else
    let r := getWorld worldId s
    let ref := r.1
    let s1 := r.2
    let w := (mget ref s1.store).getD []
    if MAX_PLAYERS_PER_WORLD ≤ w.length then
      ⟨s1, [.emitToSocket socketId (.errorMsg "World is full"), .disconnect socketId], none⟩
    else
      let s2 := { s1 with userSockets := mset userId socketId s1.userSockets }
      let p := mkPlayer userId username now
      let s3 := { s2 with store := mset ref (mset userId p w) s2.store }
      ⟨s3,
        [.emitToSocket socketId (.worldState (w.map Prod.snd)),
         .broadcastExcept worldId socketId (.playerJoined p)],
        some ⟨userId, worldId, socketId, ref⟩⟩

/-- The `player:move` handler: rate-limit gate first (its clock advances
on every event that passes, before any validation), silent drop when the
player is gone, `player:position_reset` to the sender alone on validator
rejection, otherwise mutate the player and broadcast `player:moved` to
the other members. -/
def handleMove (sess : Session) (now : Nat) (pos : Position) (dir : String)
    (moving : Bool) (s : ServerState) : ServerState × List Effect :=
  match checkRateLimit sess.socketId now s.rateLimits with
  | (false, _) => (s, [])
  | (true, rl) =>
      let s1 := { s with rateLimits := rl }
      let w := (mget sess.worldRef s1.store).getD []
      match mget sess.userId w with
      | none => (s1, [])
      | some player =>
          if validateMovementB (some player.position) pos 15 then
            let player2 := { player with
              position := pos, direction := dir, isMoving := moving, timestamp := now }
            ({ s1 with store := mset sess.worldRef (mset sess.userId player2 w) s1.store },
              [.broadcastExcept sess.worldId sess.socketId
                (.playerMoved sess.userId pos dir moving now)])
          else
            (s1, [.emitToSocket sess.socketId (.positionReset player.position)])

/-- The `chat:message` handler: drop when the sender is gone from the
world, otherwise stamp with the sender identity and a server timestamp
and broadcast to the whole room, sender included.  The source performs
no emptiness or length check on the message. -/
def handleChat (sess : Session) (now : Nat) (msg : String)
    (s : ServerState) : ServerState × List Effect :=
  let w := (mget sess.worldRef s.store).getD []
  match mget sess.userId w with
  | none => (s, [])
  | some player =>
      (s, [.broadcastAll sess.worldId
            (.chatMessage sess.userId player.username msg now)])

/-- The `player:interact` handler: no-op unless both parties are in the
world; notify the initiator, then the target through the
`userSockets` Map. -/
def handleInteract (sess : Session) (targetId : String)
    (s : ServerState) : ServerState × List Effect :=
  let w := (mget sess.worldRef s.store).getD []
  match mget sess.userId w, mget targetId w with
  | some player, some target =>
      let eff1 := Effect.emitToSocket sess.socketId
        (.interactionInitiated targetId target.username)
      (match mget targetId s.userSockets with
       | some tsid =>
          (s, [eff1, .emitToSocket tsid (.interactionReceived sess.userId player.username)])
       | none => (s, [eff1]))
  | _, _ => (s, [])

/-- The `disconnect` handler: delete the player from the captured world
Map, drop the `userSockets` and `rateLimits` entries, broadcast
`player:left`, and delete the registry entry for `worldId` when the
captured Map ended up empty. -/
def handleDisconnect (sess : Session) (s : ServerState) : ServerState × List Effect :=
  let w := (mget sess.worldRef s.store).getD []
  let w2 := mdel sess.userId w
  let s1 := { s with
    store := mset sess.worldRef w2 s.store
    userSockets := mdel sess.userId s.userSockets
    rateLimits := mdel sess.socketId s.rateLimits }
  let effs := [Effect.broadcastExcept sess.worldId sess.socketId (.playerLeft sess.userId)]
  if w2.length = 0 then
    ({ s1 with worlds := mdel sess.worldId s1.worlds }, effs)
  else
    (s1, effs)

/-- One registered world after a cleanup pass: players with
`now - player.timestamp > 300000` are deleted. -/
def reapWorld (now : Nat) (w : WorldMap) : WorldMap :=
  w.filter (fun e => decide (now - e.2.timestamp ≤ STALE_MS))

/-- The periodic cleanup: every registered world is swept for stale
players, then registry entries whose world ended up empty are deleted.
Nothing is emitted, and `userSockets` and `rateLimits` are untouched. -/
def reaperSweep (now : Nat) (s : ServerState) : ServerState × List Effect :=
  let refs := s.worlds.map Prod.snd
  let store2 := s.store.map (fun e => (e.1, if refs.contains e.1 then reapWorld now e.2 else e.2))
  let worlds2 := s.worlds.filter (fun e => ((mget e.2 store2).getD []).length ≠ 0)
  ({ s with store := store2, worlds := worlds2 }, [])

/-- The empty server state at process start. -/
def emptyS : ServerState := ⟨[], [], [], [], 0⟩

/-- A one-player state: user `A` (socket `sA`) alone in world `W` at
position `(100, 100)` with `timestamp = 0`. -/
def oneA : Player :=
  { id := "A", username := "UserA", position := { x := 100, y := 100 }
    direction := "down", isMoving := false, avatar := "🧍", timestamp := 0 }

/-- Server state holding exactly `oneA` in world `W` under reference 0. -/
def stateA : ServerState :=
  { worlds := [("W", 0)], store := [(0, [("A", oneA)])]
    userSockets := [("A", "sA")], rateLimits := [], nextRef := 1 }

/-- The session of user `A` in `stateA`. -/
def sessA : Session := ⟨"A", "W", "sA", 0⟩

/-- A world holding fifty players with ids `"0"` through `"49"`. -/
def fullWorld : WorldMap :=
  (List.range MAX_PLAYERS_PER_WORLD).map (fun i => (toString i, mkPlayer (toString i) "" 0))

/-- Server state whose world `W` is at capacity. -/
def fullS : ServerState :=
  { worlds := [("W", 0)], store := [(0, fullWorld)]
    userSockets := [], rateLimits := [], nextRef := 1 }

/-- Registry-bug trace, step 1: `A` joins `W` at time 0. -/
def bugR1 : ConnResult := handleConnection "A" "W" "" "sA" 0 emptyS

/-- Registry-bug trace, step 2: cleanup at time 400000 reaps the stale
`A` and deletes the emptied registry entry for `W`. -/
def bugS2 : ServerState := (reaperSweep 400000 bugR1.state).1

/-- Registry-bug trace, step 3: `B` joins `W`, recreating the world. -/
def bugR3 : ConnResult := handleConnection "B" "W" "" "sB" 400001 bugS2

/-- Registry-bug trace, step 4: the reaped session of `A` finally
delivers its transport `disconnect`. -/
def bugS4 : ServerState := (handleDisconnect ⟨"A", "W", "sA", 0⟩ bugR3.state).1

/-- Rejoin trace, step 1: `A` joins `W` at time 5 on socket `s1`. -/
def rejoinR1 : ConnResult := handleConnection "A" "W" "" "s1" 5 emptyS

/-- Rejoin trace, step 2: the same user id joins again at time 5 on
socket `s2` while the first session is still in the world. -/
def rejoinR2 : ConnResult := handleConnection "A" "W" "" "s2" 5 rejoinR1.state

/-- Straight-left trace: user `A` joins world `W` at time 0, then the
`k`-th move (at time `1000000 + 50 k`, hence 50 ms apart) proposes a
position 15 units further left, the exact per-update allowance. -/
def oobState : Nat → ServerState
  | 0 => (handleConnection "A" "W" "" "sA" 0 emptyS).state
  | k + 1 =>
      (handleMove ⟨"A", "W", "sA", 0⟩ (1000000 + 50 * k)
        ⟨500 - 15 * ((k : ℚ) + 1), 500⟩ "left" true (oobState k)).1

/-- The player record of the straight-left trace after `k ≥ 1` accepted
moves: `x`-coordinate `500 - 15 k`. -/
def oobPlayer (k : Nat) : Player :=
  { id := "A", username := "UserA", position := { x := 500 - 15 * (k : ℚ), y := 500 }
    direction := "left", isMoving := true, avatar := "🧍"
    timestamp := 1000000 + 50 * (k - 1) }

/-- Closed form of the full server state of the straight-left trace
after `k ≥ 1` accepted moves. -/
def mkOOB (k : Nat) : ServerState :=
  { worlds := [("W", 0)], store := [(0, [("A", oobPlayer k)])]
    userSockets := [("A", "sA")], rateLimits := [("sA", 1000000 + 50 * (k - 1))]
    nextRef := 1 }

/-- A second player used by concrete instantiations: user `B` (socket
`sB`) at `(100, 130)` with `timestamp = 0`. -/
def oneB : Player :=
  { id := "B", username := "UserB", position := { x := 100, y := 130 }
    direction := "down", isMoving := false, avatar := "🧍", timestamp := 0 }

/-- Server state holding `oneA` and `oneB` in world `W` under reference 0. -/
def stateAB : ServerState :=
  { worlds := [("W", 0)], store := [(0, [("A", oneA), ("B", oneB)])]
    userSockets := [("A", "sA"), ("B", "sB")], rateLimits := [], nextRef := 1 }

theorem mget_mset_self {κ α : Type} [DecidableEq κ] (k : κ) (v : α) (l : List (κ × α)) :
    mget k (mset k v l) = some v := by
  induction l with
  | nil => simp [mget, mset]
  | cons e rest ih =>
      by_cases h : e.1 = k
      · simp [mset, h, mget]
      · simp [mset, h, mget, ih]

theorem mset_length_of_mget {κ α : Type} [DecidableEq κ] (k : κ) (v v2 : α)
    (l : List (κ × α)) (h : mget k l = some v) : (mset k v2 l).length = l.length := by
  induction l with
  | nil => simp [mget] at h
  | cons e rest ih =>
      by_cases he : e.1 = k
      · simp [mset, he]
      · simp [mget, he] at h
        simp [mset, he, ih h]

theorem mget_eq_none_iff {κ α : Type} [DecidableEq κ] (k : κ) (l : List (κ × α)) :
    mget k l = none ↔ ∀ e ∈ l, e.1 ≠ k := by
  induction l with
  | nil => simp [mget]
  | cons e rest ih =>
      by_cases he : e.1 = k
      · simp [mget, he]
      · simp [mget, he, ih]

theorem mget_mem {κ α : Type} [DecidableEq κ] (k : κ) (v : α) (l : List (κ × α))
    (h : mget k l = some v) : (k, v) ∈ l := by
  induction l with
  | nil => simp [mget] at h
  | cons e rest ih =>
      by_cases he : e.1 = k
      · obtain ⟨a, b⟩ := e
        have ha : a = k := he
        have hb : b = v := by simpa [mget, ha] using h
        subst ha
        subst hb
        exact List.mem_cons_self _ _
      · simp [mget, he] at h
        exact List.mem_cons_of_mem _ (ih h)

theorem mget_map_key {κ α : Type} [DecidableEq κ] (g : κ → α → α) (l : List (κ × α))
    (k : κ) :
    mget k (l.map (fun e => (e.1, g e.1 e.2))) = (mget k l).map (g k) := by
  induction l with
  | nil => simp [mget]
  | cons e rest ih =>
      by_cases he : e.1 = k
      · subst he
        simp [mget]
      · simp [mget, he, ih]

theorem mget_filter_eq_none {κ α : Type} [DecidableEq κ] (P : κ × α → Bool)
    (l : List (κ × α)) (k : κ) (v : α) (hn : (l.map Prod.fst).Nodup)
    (h : mget k l = some v) (hP : P (k, v) = false) :
    mget k (l.filter P) = none := by
  induction l with
  | nil => simp [mget] at h
  | cons e rest ih =>
      simp only [List.map_cons, List.nodup_cons] at hn
      by_cases he : e.1 = k
      · obtain ⟨a, b⟩ := e
        have ha : a = k := he
        have hb : b = v := by simpa [mget, ha] using h
        subst ha
        subst hb
        rw [List.filter_cons]
        simp only [hP]
        simp only [Bool.false_eq_true, if_false]
        rw [mget_eq_none_iff]
        intro e2 he2
        have hmem : e2.1 ∈ rest.map Prod.fst :=
          List.mem_map_of_mem _ (List.mem_of_mem_filter he2)
        intro hk
        rw [hk] at hmem
        exact hn.1 hmem
      · simp [mget, he] at h
        have hrec := ih hn.2 h
        rw [List.filter_cons]
        by_cases hPe : P e
        · simp [hPe, mget, he, hrec]
        · simp [hPe, hrec]

theorem dist2_nonneg (a b : Position) : 0 ≤ dist2 a b :=
  add_nonneg (mul_self_nonneg _) (mul_self_nonneg _)

theorem validB_some_iff (op np : Position) (m : ℚ) :
    validateMovementB (some op) np m = true ↔ dist2 op np ≤ m * m := by
  simp [validateMovementB]

theorem sqrt_cast_le_iff (q m : ℚ) (hm : 0 ≤ m) :
    (Real.sqrt (q : ℝ) ≤ (m : ℝ)) ↔ q ≤ m * m := by
  rw [Real.sqrt_le_left (by exact_mod_cast hm), sq]
  constructor
  · intro h
    exact_mod_cast h
  · intro h
    exact_mod_cast h

theorem validateMovement_iff_validB (oldPos : Option Position) (newPos : Position)
    (m : ℚ) (hm : 0 ≤ m) :
    validateMovement oldPos newPos m ↔ validateMovementB oldPos newPos m = true := by
  cases oldPos with
  | none => simp [validateMovement, validateMovementB]
  | some op =>
      rw [validB_some_iff]
      exact sqrt_cast_le_iff (dist2 op newPos) m hm

/-- C1: the movement validator is a pure decision function: for every
previous position, proposed position and nonnegative `maxSpeed` it
accepts exactly when the Euclidean distance between proposed and
previous is at most `maxSpeed`, and it accepts unconditionally when the
previous position is undefined.  The validator takes no elapsed-time
parameter, so the allowance is never scaled by elapsed time. -/
theorem movement_validator_spec (oldPos : Option Position) (newPos : Position)
    (m : ℚ) (hm : 0 ≤ m) :
    validateMovement oldPos newPos m ↔
      (oldPos = none ∨ ∃ op, oldPos = some op ∧ dist2 op newPos ≤ m * m) := by
  cases oldPos with
  | none => simp [validateMovement]
  | some op =>
      rw [validateMovement_iff_validB _ _ _ hm, validB_some_iff]
      simp

/-- Concrete instantiation of `movement_validator_spec`: previous
`(100, 100)`, proposed `(110, 100)`, `maxSpeed = 15`. -/
theorem movement_validator_spec_witness :
    (0 : ℚ) ≤ 15 ∧
      (validateMovement (some ⟨100, 100⟩) ⟨110, 100⟩ 15 ↔
        ((some (⟨100, 100⟩ : Position) = none) ∨
          ∃ op, some (⟨100, 100⟩ : Position) = some op ∧ dist2 op ⟨110, 100⟩ ≤ 15 * 15)) :=
  ⟨by norm_num, movement_validator_spec (some ⟨100, 100⟩) ⟨110, 100⟩ 15 (by norm_num)⟩

theorem checkRateLimit_false_iff (socketId : String) (now : Nat) (rl : List (String × Nat)) :
    (checkRateLimit socketId now rl).1 = false ↔
      now - (mget socketId rl).getD 0 < UPDATE_RATE_LIMIT := by
  by_cases h : now - (mget socketId rl).getD 0 < UPDATE_RATE_LIMIT
  · simp [checkRateLimit, h]
  · simp [checkRateLimit, h]

theorem checkRateLimit_pass (socketId : String) (now : Nat) (rl : List (String × Nat))
    (h : (checkRateLimit socketId now rl).1 = true) :
    checkRateLimit socketId now rl = (true, mset socketId now rl) := by
  by_cases hlt : now - (mget socketId rl).getD 0 < UPDATE_RATE_LIMIT
  · exfalso
    simp [checkRateLimit, hlt] at h
  · simp [checkRateLimit, hlt]

theorem handleMove_dropped (sess : Session) (now : Nat) (pos : Position) (dir : String)
    (moving : Bool) (s : ServerState)
    (h : (checkRateLimit sess.socketId now s.rateLimits).1 = false) :
    handleMove sess now pos dir moving s = (s, []) := by
  rcases hcr : checkRateLimit sess.socketId now s.rateLimits with ⟨b, rl⟩
  rw [hcr] at h
  subst h
  unfold handleMove
  rw [hcr]

theorem handleMove_rateLimits_of_pass (sess : Session) (now : Nat) (pos : Position)
    (dir : String) (moving : Bool) (s : ServerState)
    (h : (checkRateLimit sess.socketId now s.rateLimits).1 = true) :
    (handleMove sess now pos dir moving s).1.rateLimits =
      mset sess.socketId now s.rateLimits := by
  have hcr := checkRateLimit_pass sess.socketId now s.rateLimits h
  unfold handleMove
  rw [hcr]
  dsimp only
  split
  · rfl
  · split <;> rfl

/-- C2: a move whose proposed position the validator rejects leaves the
whole world store (hence the player state: position, direction,
isMoving, timestamp) unchanged, broadcasts nothing, and produces exactly
one reply: `player:position_reset` carrying the authoritative current
position, sent to the originating socket alone; no disconnect occurs. -/
theorem move_rejected_soft_fail (sess : Session) (now : Nat) (pos : Position)
    (dir : String) (moving : Bool) (s : ServerState) (player : Player)
    (hgate : (checkRateLimit sess.socketId now s.rateLimits).1 = true)
    (hp : mget sess.userId ((mget sess.worldRef s.store).getD []) = some player)
    (hrej : validateMovementB (some player.position) pos 15 = false) :
    (handleMove sess now pos dir moving s).1.store = s.store ∧
    (handleMove sess now pos dir moving s).1.worlds = s.worlds ∧
    (handleMove sess now pos dir moving s).1.userSockets = s.userSockets ∧
    (handleMove sess now pos dir moving s).2 =
      [Effect.emitToSocket sess.socketId (Event.positionReset player.position)] := by
  have hcr := checkRateLimit_pass sess.socketId now s.rateLimits hgate
  unfold handleMove
  rw [hcr]
  dsimp only
  rw [hp]
  dsimp only
  rw [hrej]
  simp

/-- Concrete instantiation of `move_rejected_soft_fail`: user `A` at
`(100, 100)` proposes `(200, 100)` (distance 100 over the cap 15). -/
theorem move_rejected_soft_fail_witness :
    (checkRateLimit "sA" 100 ([] : List (String × Nat))).1 = true ∧
    mget "A" ((mget 0 stateA.store).getD []) = some oneA ∧
    validateMovementB (some oneA.position) ⟨200, 100⟩ 15 = false ∧
    ((handleMove sessA 100 ⟨200, 100⟩ "left" true stateA).1.store = stateA.store ∧
     (handleMove sessA 100 ⟨200, 100⟩ "left" true stateA).1.worlds = stateA.worlds ∧
     (handleMove sessA 100 ⟨200, 100⟩ "left" true stateA).1.userSockets = stateA.userSockets ∧
     (handleMove sessA 100 ⟨200, 100⟩ "left" true stateA).2 =
       [Effect.emitToSocket "sA" (Event.positionReset oneA.position)]) :=
  ⟨by decide, by decide, by norm_num [validateMovementB, dist2, oneA],
    move_rejected_soft_fail sessA 100 ⟨200, 100⟩ "left" true stateA oneA
      (by decide) (by decide) (by norm_num [validateMovementB, dist2, oneA])⟩

/-- C3: with the first move event passing the rate-limit gate at `t1`,
the clock `lastAcceptedAt` is set to `t1` no matter how the validator
then treats the position; a second move event less than
`UPDATE_RATE_LIMIT` ms later is silently dropped (state and effects
untouched); a third event at least `UPDATE_RATE_LIMIT` ms after `t1`
passes the gate again. -/
theorem rate_limit_gate (sess : Session) (t1 t2 t3 : Nat) (s0 : ServerState)
    (p1 p2 : Position) (d1 d2 : String) (b1 b2 : Bool)
    (hgate1 : (checkRateLimit sess.socketId t1 s0.rateLimits).1 = true)
    (h12 : t2 - t1 < UPDATE_RATE_LIMIT)
    (h13 : UPDATE_RATE_LIMIT ≤ t3 - t1) :
    (handleMove sess t1 p1 d1 b1 s0).1.rateLimits = mset sess.socketId t1 s0.rateLimits ∧
    handleMove sess t2 p2 d2 b2 (handleMove sess t1 p1 d1 b1 s0).1 =
      ((handleMove sess t1 p1 d1 b1 s0).1, []) ∧
    (checkRateLimit sess.socketId t3 (handleMove sess t1 p1 d1 b1 s0).1.rateLimits).1 =
      true := by
  have hrl := handleMove_rateLimits_of_pass sess t1 p1 d1 b1 s0 hgate1
  have hclock : (mget sess.socketId (handleMove sess t1 p1 d1 b1 s0).1.rateLimits).getD 0 = t1 := by
    rw [hrl, mget_mset_self]
    rfl
  refine ⟨hrl, ?_, ?_⟩
  · apply handleMove_dropped
    rw [checkRateLimit_false_iff, hclock]
    exact h12
  · rcases hb : (checkRateLimit sess.socketId t3
        (handleMove sess t1 p1 d1 b1 s0).1.rateLimits).1 with _ | _
    · exfalso
      rw [checkRateLimit_false_iff, hclock] at hb
      omega
    · rfl

/-- Concrete instantiation of `rate_limit_gate`: events at 100 ms,
110 ms and 160 ms from a fresh rate-limit table. -/
theorem rate_limit_gate_witness :
    (checkRateLimit "sA" 100 stateA.rateLimits).1 = true ∧
    (110 : Nat) - 100 < UPDATE_RATE_LIMIT ∧
    UPDATE_RATE_LIMIT ≤ (160 : Nat) - 100 ∧
    ((handleMove sessA 100 ⟨110, 100⟩ "left" true stateA).1.rateLimits =
        mset "sA" 100 stateA.rateLimits ∧
      handleMove sessA 110 ⟨120, 100⟩ "left" true
          (handleMove sessA 100 ⟨110, 100⟩ "left" true stateA).1 =
        ((handleMove sessA 100 ⟨110, 100⟩ "left" true stateA).1, []) ∧
      (checkRateLimit "sA" 160
          (handleMove sessA 100 ⟨110, 100⟩ "left" true stateA).1.rateLimits).1 = true) :=
  ⟨by decide, by decide, by decide,
    rate_limit_gate sessA 100 110 160 stateA ⟨110, 100⟩ ⟨120, 100⟩ "left" "left" true true
      (by decide) (by decide) (by decide)⟩

/-- C4 counterexample: the empty chat message from user `A` is not
rejected — the handler performs no emptiness or length validation and
broadcasts the empty message to the whole room. -/
theorem chat_no_validation_cex :
    (handleChat sessA 777 "" stateA).2 =
      [Effect.broadcastAll "W" (Event.chatMessage "A" "UserA" "" 777)] ∧
    (handleChat sessA 777 "" stateA).2 ≠ [] := by
  constructor
  · decide
  · decide

/-- C4 amended: every chat message from a sender still present in the
room — with no emptiness or length check — is stamped with the sender
identity and a server timestamp, mutates nothing, and is broadcast to
the room once, so every member joined to the room (the sender included)
receives exactly one copy. -/
theorem chat_broadcast_all (sess : Session) (now : Nat) (msg : String)
    (s : ServerState) (player : Player)
    (hp : mget sess.userId ((mget sess.worldRef s.store).getD []) = some player) :
    handleChat sess now msg s =
      (s, [Effect.broadcastAll sess.worldId
            (Event.chatMessage sess.userId player.username msg now)]) ∧
    ∀ sid : String,
      ((handleChat sess now msg s).2.countP (deliversTo sess.worldId sid)) = 1 := by
  have h1 : handleChat sess now msg s =
      (s, [Effect.broadcastAll sess.worldId
            (Event.chatMessage sess.userId player.username msg now)]) := by
    unfold handleChat
    dsimp only
    rw [hp]
  refine ⟨h1, fun sid => ?_⟩
  rw [h1]
  simp [List.countP_cons, deliversTo]

/-- Concrete instantiation of `chat_broadcast_all`: user `A` sends
`hello` in a two-member room; any member, the sender included, is
delivered exactly one copy. -/
theorem chat_broadcast_all_witness :
    mget "A" ((mget 0 stateAB.store).getD []) = some oneA ∧
    (handleChat ⟨"A", "W", "sA", 0⟩ 900 "hello" stateAB =
      (stateAB, [Effect.broadcastAll "W" (Event.chatMessage "A" "UserA" "hello" 900)]) ∧
    ∀ sid : String,
      ((handleChat ⟨"A", "W", "sA", 0⟩ 900 "hello" stateAB).2.countP (deliversTo "W" sid)) = 1) :=
  ⟨by decide, chat_broadcast_all ⟨"A", "W", "sA", 0⟩ 900 "hello" stateAB oneA (by decide)⟩

/-- C5 counterexample: a player 400000 ms stale is removed by the sweep,
yet the sweep emits nothing at all — in particular no `player:left`
broadcast for the removed id. -/
theorem reaper_silent_cex :
    (reaperSweep 400000 stateA).2 = [] ∧
    mget "A" ((mget 0 (reaperSweep 400000 stateA).1.store).getD []) = none ∧
    mget "W" (reaperSweep 400000 stateA).1.worlds = none := by
  refine ⟨by decide, by decide, by decide⟩

/-- C5 amended: the sweep removes every registered player whose
`now - timestamp` exceeds `STALE_MS` and drops the registry entry of a
room that ends up empty, but it emits no effect whatsoever (no
`player:left`) and does not run the disconnect teardown path: the
`userSockets` and `rateLimits` entries of the reaped player survive. -/
theorem reaper_removes_stale (now : Nat) (s : ServerState) (wid : String) (ref : Nat)
    (w : WorldMap) (uid : String) (p : Player)
    (hwid : mget wid s.worlds = some ref)
    (hstore : mget ref s.store = some w)
    (hwkeys : (w.map Prod.fst).Nodup)
    (hrkeys : (s.worlds.map Prod.fst).Nodup)
    (hp : mget uid w = some p)
    (hstale : STALE_MS < now - p.timestamp) :
    (reaperSweep now s).2 = [] ∧
    mget ref (reaperSweep now s).1.store = some (reapWorld now w) ∧
    mget uid (reapWorld now w) = none ∧
    (reapWorld now w = [] → mget wid (reaperSweep now s).1.worlds = none) ∧
    (reaperSweep now s).1.userSockets = s.userSockets ∧
    (reaperSweep now s).1.rateLimits = s.rateLimits := by
  have hmem : ref ∈ s.worlds.map Prod.snd :=
    List.mem_map_of_mem _ (mget_mem _ _ _ hwid)
  have hcont : (s.worlds.map Prod.snd).contains ref = true := List.elem_iff.mpr hmem
  have hst : mget ref (s.store.map (fun e =>
      (e.1, if (s.worlds.map Prod.snd).contains e.1 then reapWorld now e.2 else e.2))) =
      some (reapWorld now w) := by
    rw [mget_map_key (fun k v =>
      if (s.worlds.map Prod.snd).contains k then reapWorld now v else v) s.store ref]
    rw [hstore]
    show some (if (s.worlds.map Prod.snd).contains ref = true
        then reapWorld now w else w) = some (reapWorld now w)
    rw [hcont]
    simp
  refine ⟨rfl, ?_, ?_, ?_, rfl, rfl⟩
  · show mget ref (s.store.map (fun e =>
        (e.1, if (s.worlds.map Prod.snd).contains e.1 then reapWorld now e.2 else e.2))) =
      some (reapWorld now w)
    exact hst
  · apply mget_filter_eq_none _ _ _ p hwkeys hp
    simp only [decide_eq_false_iff_not, not_le]
    omega
  · intro hempty
    apply mget_filter_eq_none _ _ _ ref hrkeys hwid
    simp only []
    rw [hst, hempty]
    simp

/-- Concrete instantiation of `reaper_removes_stale`: user `A` with
`timestamp = 0` swept at `now = 400000`. -/
theorem reaper_removes_stale_witness :
    mget "W" stateA.worlds = some 0 ∧
    mget 0 stateA.store = some [("A", oneA)] ∧
    mget "A" [("A", oneA)] = some oneA ∧
    STALE_MS < 400000 - oneA.timestamp ∧
    ((reaperSweep 400000 stateA).2 = [] ∧
      mget 0 (reaperSweep 400000 stateA).1.store = some (reapWorld 400000 [("A", oneA)]) ∧
      mget "A" (reapWorld 400000 [("A", oneA)]) = none ∧
      (reapWorld 400000 [("A", oneA)] = [] →
        mget "W" (reaperSweep 400000 stateA).1.worlds = none) ∧
      (reaperSweep 400000 stateA).1.userSockets = stateA.userSockets ∧
      (reaperSweep 400000 stateA).1.rateLimits = stateA.rateLimits) :=
  ⟨by decide, by decide, by decide, by decide,
    reaper_removes_stale 400000 stateA "W" 0 [("A", oneA)] "A" oneA
      (by decide) (by decide) (by decide) (by decide) (by decide) (by decide)⟩

/-- C6: the registry invariant fails on this reachable trace.  User `A`
joins world `W` (capturing Map reference 0); the sweep at 400000 reaps
`A` and deletes the emptied registry entry; user `B` then joins `W`,
which recreates the world under reference 1; when the reaped session of
`A` finally delivers its transport `disconnect`, the handler checks the
emptiness of its captured (stale, empty) Map and deletes the registry
entry for `W` — although the world of `B` registered under `W` still
holds one member.  Afterwards `B` is a room member while `W` is absent
from the registry. -/
theorem registry_iff_nonempty_bug :
    bugR1.session = some ⟨"A", "W", "sA", 0⟩ ∧
    bugR3.session = some ⟨"B", "W", "sB", 1⟩ ∧
    mget "W" bugR3.state.worlds = some 1 ∧
    mget "B" ((mget 1 bugS4.store).getD []) = some (mkPlayer "B" "" 400001) ∧
    mget "W" bugS4.worlds = none := by
  refine ⟨by decide, by decide, by decide, by decide, by decide⟩

/-- C7 counterexample: a second admission of the same user id while the
first session is still in the room succeeds, and the `world:state`
snapshot delivered to the newly admitted connection contains exactly the
newly inserted player record — the new player does appear in its own
snapshot. -/
theorem snapshot_excludes_self_cex :
    rejoinR2.session = some ⟨"A", "W", "s2", 0⟩ ∧
    rejoinR2.effects =
      [Effect.emitToSocket "s2" (Event.worldState [mkPlayer "A" "" 5]),
       Effect.broadcastExcept "W" "s2" (Event.playerJoined (mkPlayer "A" "" 5))] := by
  refine ⟨by decide, by decide⟩

theorem handleConnection_existing (userId worldId username socketId : String)
    (now : Nat) (s : ServerState) (ref : Nat) (w : WorldMap)
    (hu : ¬ userId = "") (hwid : ¬ worldId = "")
    (href : mget worldId s.worlds = some ref)
    (hw : (mget ref s.store).getD [] = w)
    (hcap : w.length < MAX_PLAYERS_PER_WORLD) :
    handleConnection userId worldId username socketId now s =
      ⟨{ s with
          userSockets := mset userId socketId s.userSockets
          store := mset ref (mset userId (mkPlayer userId username now) w) s.store },
        [Effect.emitToSocket socketId (Event.worldState (w.map Prod.snd)),
         Effect.broadcastExcept worldId socketId
           (Event.playerJoined (mkPlayer userId username now))],
        some ⟨userId, worldId, socketId, ref⟩⟩ := by
  have hg : getWorld worldId s = (ref, s) := by
    unfold getWorld
    rw [href]
  unfold handleConnection
  rw [if_neg (by push_neg; exact ⟨hu, hwid⟩)]
  dsimp only
  rw [hg]
  dsimp only
  rw [hw]
  rw [if_neg (by omega)]

theorem handleConnection_fresh (userId worldId username socketId : String)
    (now : Nat) (s : ServerState)
    (hu : ¬ userId = "") (hwid : ¬ worldId = "")
    (hww : mget worldId s.worlds = none) :
    handleConnection userId worldId username socketId now s =
      ⟨{ s with
          worlds := mset worldId s.nextRef s.worlds
          store := mset s.nextRef (mset userId (mkPlayer userId username now) [])
            (mset s.nextRef [] s.store)
          userSockets := mset userId socketId s.userSockets
          nextRef := s.nextRef + 1 },
        [Effect.emitToSocket socketId (Event.worldState []),
         Effect.broadcastExcept worldId socketId
           (Event.playerJoined (mkPlayer userId username now))],
        some ⟨userId, worldId, socketId, s.nextRef⟩⟩ := by
  have hg : getWorld worldId s =
      (s.nextRef,
        { s with
          worlds := mset worldId s.nextRef s.worlds
          store := mset s.nextRef [] s.store
          nextRef := s.nextRef + 1 }) := by
    unfold getWorld
    rw [hww]
  have hempty : (mget s.nextRef (mset s.nextRef ([] : WorldMap) s.store)).getD [] = [] := by
    rw [mget_mset_self]
    rfl
  unfold handleConnection
  rw [if_neg (by push_neg; exact ⟨hu, hwid⟩)]
  dsimp only
  rw [hg]
  dsimp only
  rw [hempty]
  rw [if_neg (by simp [MAX_PLAYERS_PER_WORLD])]
  rfl

theorem worldAt_existing (worldId : String) (s : ServerState) (ref : Nat)
    (h : mget worldId s.worlds = some ref) :
    worldAt worldId s = (mget ref s.store).getD [] := by
  unfold worldAt getWorld
  rw [h]

theorem worldAt_fresh (worldId : String) (s : ServerState)
    (h : mget worldId s.worlds = none) :
    worldAt worldId s = [] := by
  unfold worldAt getWorld
  rw [h]
  dsimp only
  rw [mget_mset_self]
  rfl

/-- C7 amended: for every successful admission whose user id is not
already present in the resolved world, the `world:state` snapshot
delivered to the new connection is the room content from before the
insertion — no element carries the new id, and in particular the newly
inserted player record is not in it — and `player:joined` with the new
record is broadcast to the other members only (the sender socket is
excluded).  When the same user id is already present, the snapshot does
contain an entry under the joining id (see the counterexample). -/
theorem admission_snapshot_excludes_fresh (userId worldId username socketId : String)
    (now : Nat) (s : ServerState) (w : WorldMap)
    (hu : userId ≠ "") (hwid : worldId ≠ "")
    (hres : worldAt worldId s = w)
    (hcap : w.length < MAX_PLAYERS_PER_WORLD)
    (hkeys : ∀ e ∈ w, e.2.id = e.1)
    (habs : mget userId w = none) :
    (handleConnection userId worldId username socketId now s).effects =
      [Effect.emitToSocket socketId (Event.worldState (w.map Prod.snd)),
       Effect.broadcastExcept worldId socketId
         (Event.playerJoined (mkPlayer userId username now))] ∧
    (∀ p ∈ w.map Prod.snd, p.id ≠ userId) ∧
    mkPlayer userId username now ∉ w.map Prod.snd := by
  have hid : ∀ p ∈ w.map Prod.snd, p.id ≠ userId := by
    intro p hpmem
    obtain ⟨e, he, rfl⟩ := List.mem_map.mp hpmem
    rw [hkeys e he]
    exact (mget_eq_none_iff userId w).mp habs e he
  have hnotmem : mkPlayer userId username now ∉ w.map Prod.snd := by
    intro hmem
    have hne := hid _ hmem
    simp [mkPlayer] at hne
  refine ⟨?_, hid, hnotmem⟩
  cases hww : mget worldId s.worlds with
  | some ref =>
      have hw : (mget ref s.store).getD [] = w := by
        rw [← hres, worldAt_existing worldId s ref hww]
      rw [handleConnection_existing userId worldId username socketId now s ref w
        hu hwid hww hw hcap]
  | none =>
      have hwe : w = [] := by
        rw [← hres, worldAt_fresh worldId s hww]
      subst hwe
      rw [handleConnection_fresh userId worldId username socketId now s hu hwid hww]
      rfl

/-- Concrete instantiation of `admission_snapshot_excludes_fresh`: user
`C` joins the one-member world of `stateA`. -/
theorem admission_snapshot_excludes_fresh_witness :
    ("C" : String) ≠ "" ∧
    worldAt "W" stateA = [("A", oneA)] ∧
    ([("A", oneA)] : WorldMap).length < MAX_PLAYERS_PER_WORLD ∧
    (∀ e ∈ ([("A", oneA)] : WorldMap), e.2.id = e.1) ∧
    mget "C" ([("A", oneA)] : WorldMap) = none ∧
    ((handleConnection "C" "W" "" "sC" 42 stateA).effects =
      [Effect.emitToSocket "sC" (Event.worldState (([("A", oneA)] : WorldMap).map Prod.snd)),
       Effect.broadcastExcept "W" "sC" (Event.playerJoined (mkPlayer "C" "" 42))] ∧
    (∀ p ∈ (([("A", oneA)] : WorldMap)).map Prod.snd, p.id ≠ "C") ∧
    mkPlayer "C" "" 42 ∉ (([("A", oneA)] : WorldMap)).map Prod.snd) :=
  ⟨by decide, by decide, by decide, by decide, by decide,
    admission_snapshot_excludes_fresh "C" "W" "" "sC" 42 stateA [("A", oneA)]
      (by decide) (by decide) (by decide) (by decide) (by decide) (by decide)⟩

/-- C8: an admission attempt on a room already holding at least
`MAX_PLAYERS_PER_WORLD` members is refused: the server emits `error`
with message `World is full` to the attempting socket and disconnects
it, and the entire server state — in particular the membership of the
room — is unchanged. -/
theorem admission_room_full (userId worldId username socketId : String) (now : Nat)
    (s : ServerState) (w : WorldMap)
    (hu : userId ≠ "") (hwid : worldId ≠ "")
    (hres : worldAt worldId s = w)
    (hfull : MAX_PLAYERS_PER_WORLD ≤ w.length) :
    handleConnection userId worldId username socketId now s =
      ⟨s, [Effect.emitToSocket socketId (Event.errorMsg "World is full"),
           Effect.disconnect socketId], none⟩ := by
  cases hww : mget worldId s.worlds with
  | none =>
      exfalso
      have hwe : w = [] := by
        rw [← hres, worldAt_fresh worldId s hww]
      rw [hwe] at hfull
      simp [MAX_PLAYERS_PER_WORLD] at hfull
  | some ref =>
      have hg : getWorld worldId s = (ref, s) := by
        unfold getWorld
        rw [hww]
      have hw : (mget ref s.store).getD [] = w := by
        rw [← hres, worldAt_existing worldId s ref hww]
      unfold handleConnection
      rw [if_neg (by push_neg; exact ⟨hu, hwid⟩)]
      dsimp only
      rw [hg]
      dsimp only
      rw [hw]
      rw [if_pos hfull]

/-- Concrete instantiation of `admission_room_full`: user `X` attempts
to join the fifty-member world of `fullS`. -/
theorem admission_room_full_witness :
    ("X" : String) ≠ "" ∧
    worldAt "W" fullS = fullWorld ∧
    MAX_PLAYERS_PER_WORLD ≤ fullWorld.length ∧
    handleConnection "X" "W" "" "sX" 7 fullS =
      ⟨fullS, [Effect.emitToSocket "sX" (Event.errorMsg "World is full"),
               Effect.disconnect "sX"], none⟩ :=
  ⟨by decide, by decide, by decide,
    admission_room_full "X" "W" "" "sX" 7 fullS fullWorld
      (by decide) (by decide) (by decide) (by decide)⟩

/-- C10 counterexample: an admission carrying a user id already present
in the target room is NOT always accepted — when the room is at
capacity the handler rejects the rejoin with `World is full` and
disconnects it, even though the id is one of the fifty members. -/
theorem rejoin_full_room_cex :
    mget "0" (worldAt "W" fullS) = some (mkPlayer "0" "" 0) ∧
    (handleConnection "0" "W" "" "sNew" 9 fullS).session = none ∧
    (handleConnection "0" "W" "" "sNew" 9 fullS).effects =
      [Effect.emitToSocket "sNew" (Event.errorMsg "World is full"),
       Effect.disconnect "sNew"] := by
  refine ⟨by decide, by decide, by decide⟩

/-- C10 amended: an admission carrying a user id already present in a
room below capacity succeeds: the old record under that id is replaced
in place by a fresh spawn-position record, the member count is
unchanged, no `player:left` (nor any rejection) is emitted — the
effects are exactly the snapshot and the `player:joined` broadcast —
and the `userSockets` entry is overwritten with the new socket, so a
subsequent `player:interact` that targets this user id delivers its
`interaction:received` to the newest socket alone. -/
theorem rejoin_replaces_state (userId worldId username socketId : String) (now : Nat)
    (s : ServerState) (w : WorldMap) (oldP : Player)
    (sess2 : Session) (p2 target : Player)
    (hu : userId ≠ "") (hwid : worldId ≠ "")
    (hres : worldAt worldId s = w)
    (hcap : w.length < MAX_PLAYERS_PER_WORLD)
    (hold : mget userId w = some oldP)
    (hp2 : mget sess2.userId ((mget sess2.worldRef
      (handleConnection userId worldId username socketId now s).state.store).getD []) =
      some p2)
    (htgt : mget userId ((mget sess2.worldRef
      (handleConnection userId worldId username socketId now s).state.store).getD []) =
      some target) :
    (handleConnection userId worldId username socketId now s).session.isSome = true ∧
    worldAt worldId (handleConnection userId worldId username socketId now s).state =
      mset userId (mkPlayer userId username now) w ∧
    (mset userId (mkPlayer userId username now) w).length = w.length ∧
    (handleConnection userId worldId username socketId now s).effects =
      [Effect.emitToSocket socketId (Event.worldState (w.map Prod.snd)),
       Effect.broadcastExcept worldId socketId
         (Event.playerJoined (mkPlayer userId username now))] ∧
    mget userId (handleConnection userId worldId username socketId now s).state.userSockets =
      some socketId ∧
    (handleInteract sess2 userId
        (handleConnection userId worldId username socketId now s).state).2 =
      [Effect.emitToSocket sess2.socketId (Event.interactionInitiated userId target.username),
       Effect.emitToSocket socketId (Event.interactionReceived sess2.userId p2.username)] := by
  cases hww : mget worldId s.worlds with
  | none =>
      exfalso
      have hwe : w = [] := by
        rw [← hres, worldAt_fresh worldId s hww]
      rw [hwe] at hold
      simp [mget] at hold
  | some ref =>
      have hw : (mget ref s.store).getD [] = w := by
        rw [← hres, worldAt_existing worldId s ref hww]
      have hE := handleConnection_existing userId worldId username socketId now s ref w
        hu hwid hww hw hcap
      have hus : mget userId (mset userId socketId s.userSockets) = some socketId :=
        mget_mset_self userId socketId s.userSockets
      refine ⟨?_, ?_, mset_length_of_mget userId oldP _ w hold, ?_, ?_, ?_⟩
      · rw [hE]
        rfl
      · have hww2 : mget worldId
            (handleConnection userId worldId username socketId now s).state.worlds =
            some ref := by
          rw [hE]
          exact hww
        rw [worldAt_existing worldId _ ref hww2, hE]
        show (mget ref (mset ref (mset userId (mkPlayer userId username now) w) s.store)).getD []
          = mset userId (mkPlayer userId username now) w
        rw [mget_mset_self]
        rfl
      · rw [hE]
      · rw [hE]
        exact hus
      · rw [hE] at hp2 htgt ⊢
        unfold handleInteract
        dsimp only at hp2 htgt ⊢
        rw [hp2, htgt]
        dsimp only
        rw [hus]

/-- Concrete instantiation of `rejoin_replaces_state`: user `A` rejoins
the two-member world of `stateAB` on new socket `s9`; the interacting
bystander is `B`. -/
theorem rejoin_replaces_state_witness :
    worldAt "W" stateAB = [("A", oneA), ("B", oneB)] ∧
    mget "A" ([("A", oneA), ("B", oneB)] : WorldMap) = some oneA ∧
    ((handleConnection "A" "W" "" "s9" 9 stateAB).session.isSome = true ∧
      worldAt "W" (handleConnection "A" "W" "" "s9" 9 stateAB).state =
        mset "A" (mkPlayer "A" "" 9) [("A", oneA), ("B", oneB)] ∧
      (mset "A" (mkPlayer "A" "" 9) ([("A", oneA), ("B", oneB)] : WorldMap)).length =
        ([("A", oneA), ("B", oneB)] : WorldMap).length ∧
      (handleConnection "A" "W" "" "s9" 9 stateAB).effects =
        [Effect.emitToSocket "s9"
           (Event.worldState (([("A", oneA), ("B", oneB)] : WorldMap).map Prod.snd)),
         Effect.broadcastExcept "W" "s9" (Event.playerJoined (mkPlayer "A" "" 9))] ∧
      mget "A" (handleConnection "A" "W" "" "s9" 9 stateAB).state.userSockets = some "s9" ∧
      (handleInteract ⟨"B", "W", "sB", 0⟩ "A"
          (handleConnection "A" "W" "" "s9" 9 stateAB).state).2 =
        [Effect.emitToSocket "sB" (Event.interactionInitiated "A" (mkPlayer "A" "" 9).username),
         Effect.emitToSocket "s9" (Event.interactionReceived "B" oneB.username)]) :=
  ⟨by decide, by decide,
    rejoin_replaces_state "A" "W" "" "s9" 9 stateAB [("A", oneA), ("B", oneB)] oneA
      ⟨"B", "W", "sB", 0⟩ oneB (mkPlayer "A" "" 9)
      (by decide) (by decide) (by decide) (by decide) (by decide) (by decide) (by decide)⟩

theorem handleMove_accept_eval (now : Nat) (pos : Position) (p : Player)
    (rl : List (String × Nat))
    (hgate : (checkRateLimit "sA" now rl).1 = true)
    (hacc : validateMovementB (some p.position) pos 15 = true) :
    handleMove ⟨"A", "W", "sA", 0⟩ now pos "left" true
      { worlds := [("W", 0)], store := [(0, [("A", p)])],
        userSockets := [("A", "sA")], rateLimits := rl, nextRef := 1 } =
      ({ worlds := [("W", 0)],
         store := [(0, [("A",
           { p with
             position := pos, direction := "left", isMoving := true,
             timestamp := now })])],
         userSockets := [("A", "sA")], rateLimits := mset "sA" now rl, nextRef := 1 },
       [Effect.broadcastExcept "W" "sA" (Event.playerMoved "A" pos "left" true now)]) := by
  have hcr := checkRateLimit_pass "sA" now rl hgate
  unfold handleMove
  dsimp only
  rw [hcr]
  dsimp only
  simp [mget, mset, hacc]

theorem oob_closed_form : ∀ j : Nat, oobState (j + 1) = mkOOB (j + 1) := by
  intro j
  induction j with
  | zero =>
      have h0 : oobState 0 =
          { worlds := [("W", 0)], store := [(0,
              [("A", { id := "A", username := "UserA", position := { x := 500, y := 500 }
                       direction := "down", isMoving := false, avatar := "🧍"
                       timestamp := 0 })])],
            userSockets := [("A", "sA")], rateLimits := [], nextRef := 1 } := by decide
      show (handleMove ⟨"A", "W", "sA", 0⟩ (1000000 + 50 * 0)
          ⟨500 - 15 * (((0 : Nat) : ℚ) + 1), 500⟩ "left" true (oobState 0)).1 = mkOOB 1
      rw [h0]
      rw [handleMove_accept_eval (1000000 + 50 * 0) ⟨500 - 15 * (((0 : Nat) : ℚ) + 1), 500⟩
        _ [] (by decide) (by norm_num [validateMovementB, dist2])]
      simp [mkOOB, oobPlayer, mset]
  | succ j ih =>
      show (handleMove ⟨"A", "W", "sA", 0⟩ (1000000 + 50 * (j + 1))
          ⟨500 - 15 * (((j + 1 : Nat) : ℚ) + 1), 500⟩ "left" true (oobState (j + 1))).1 =
        mkOOB (j + 2)
      rw [ih]
      show (handleMove ⟨"A", "W", "sA", 0⟩ (1000000 + 50 * (j + 1))
          ⟨500 - 15 * (((j + 1 : Nat) : ℚ) + 1), 500⟩ "left" true
          { worlds := [("W", 0)], store := [(0, [("A", oobPlayer (j + 1))])]
            userSockets := [("A", "sA")]
            rateLimits := [("sA", 1000000 + 50 * ((j + 1) - 1))], nextRef := 1 }).1 =
        mkOOB (j + 2)
      rw [handleMove_accept_eval (1000000 + 50 * (j + 1))
        ⟨500 - 15 * (((j + 1 : Nat) : ℚ) + 1), 500⟩ (oobPlayer (j + 1))
        [("sA", 1000000 + 50 * ((j + 1) - 1))]
        (by
          have hlt : ¬ (1000000 + 50 * (j + 1) - (1000000 + 50 * j) <
              UPDATE_RATE_LIMIT) := by
            simp [UPDATE_RATE_LIMIT]
            omega
          simp [checkRateLimit, mget, hlt])
        (by
          simp [validateMovementB, dist2, oobPlayer]
          ring_nf
          norm_num)]
      simp [mkOOB, oobPlayer, mset]
      ring

/-- C9 counterexample: a reachable state is out of bounds.  After the
join at the spawn `(500, 500)` and thirty-four accepted moves of
exactly 15 units straight left (each 50 ms apart, so the gate passes,
and each within the validator allowance), the stored position of the
player has `x = -10`, outside `[0, W]` for every world width `W`.  The
server performs no bounds check on accepted positions. -/
theorem bounds_violation_cex :
    mget "A" ((mget 0 (oobState 34).store).getD []) = some (oobPlayer 34) ∧
    (oobPlayer 34).position.x = -10 ∧ (oobPlayer 34).position.x < 0 := by
  have h := oob_closed_form 33
  norm_num at h
  refine ⟨?_, ?_, ?_⟩
  · rw [h]
    simp [mkOOB, mget]
  · norm_num [oobPlayer]
  · norm_num [oobPlayer]

/-- C9 amended: the only constraint the core places on a position
change is the per-update validator cap — an accepted move sets the
stored position to exactly the proposed one (no clamping to the world
bounds), with the squared displacement from the previous position at
most `15 * 15`; positions are therefore not confined to
`[0, W] × [0, H]` (see the counterexample). -/
theorem accepted_move_bound (sess : Session) (now : Nat) (pos : Position) (dir : String)
    (moving : Bool) (s : ServerState) (player : Player)
    (hgate : (checkRateLimit sess.socketId now s.rateLimits).1 = true)
    (hp : mget sess.userId ((mget sess.worldRef s.store).getD []) = some player)
    (hacc : validateMovementB (some player.position) pos 15 = true) :
    mget sess.userId
        ((mget sess.worldRef (handleMove sess now pos dir moving s).1.store).getD []) =
      some { player with
             position := pos, direction := dir, isMoving := moving, timestamp := now } ∧
    dist2 player.position pos ≤ 15 * 15 := by
  have hcr := checkRateLimit_pass sess.socketId now s.rateLimits hgate
  refine ⟨?_, (validB_some_iff _ _ _).mp hacc⟩
  unfold handleMove
  rw [hcr]
  dsimp only
  rw [hp]
  dsimp only
  rw [if_pos hacc]
  dsimp only
  rw [mget_mset_self]
  dsimp only [Option.getD]
  rw [mget_mset_self]

/-- Concrete instantiation of `accepted_move_bound`: user `A` at
`(100, 100)` proposes `(110, 100)`, distance 10 within the cap. -/
theorem accepted_move_bound_witness :
    (checkRateLimit "sA" 100 stateA.rateLimits).1 = true ∧
    mget "A" ((mget 0 stateA.store).getD []) = some oneA ∧
    validateMovementB (some oneA.position) ⟨110, 100⟩ 15 = true ∧
    (mget "A" ((mget 0 (handleMove sessA 100 ⟨110, 100⟩ "right" true stateA).1.store).getD []) =
        some { oneA with
               position := ⟨110, 100⟩, direction := "right", isMoving := true,
               timestamp := 100 } ∧
      dist2 oneA.position ⟨110, 100⟩ ≤ 15 * 15) :=
  ⟨by decide, by decide, by norm_num [validateMovementB, dist2, oneA],
    accepted_move_bound sessA 100 ⟨110, 100⟩ "right" true stateA oneA
      (by decide) (by decide) (by norm_num [validateMovementB, dist2, oneA])⟩
